import Mathlib

/-!
# frigate-exporter: the incremental synchronisation engine of `main.go`

A shallow embedding of `runLoop`, `listEvents`, `scrapeCamera` and the pass
closure of `main`, followed by the properties proved about them.

Conventions of the embedding:

* `time.Duration` is an `int64` count of nanoseconds: an `Int`, with the
  wrap-around of `int64` arithmetic made explicit by `wrapInt64`.
* `time.Time` is the pair Go keeps internally: whole seconds since
  January 1, year 1 00:00:00 UTC, and nanoseconds within the second.
* The database connection and the HTTP client are explicit state (`World`)
  driven by an environment (`Env`) that decides which statements fail and
  what each HTTP request returns.
* A function that can end in a run-time panic returns a `Run`: either the
  value it returned, or `panicked`.
-/

set_option maxRecDepth 8192

namespace FrigateExporter

/-! ## The run scheduler (`runLoop`, main.go 125-143) -/

/-- Wrap-around of Go `int64` arithmetic: the representative of `x` modulo
`2^64` in the range `[-2^63, 2^63)`. -/
def wrapInt64 (x : Int) : Int := (x + 2 ^ 63) % 2 ^ 64 - 2 ^ 63

/-- Go `time.Millisecond`, in nanoseconds. -/
def Millisecond : Int := 1000000

/-- Go `time.Hour`, in nanoseconds. -/
def Hour : Int := 3600000000000

/-- Lines 134-136 of `runLoop`: a zero `lastRetry` is replaced by 250ms. -/
def retryBase (lastRetry : Int) : Int :=
  if lastRetry = 0 then wrapInt64 (Millisecond * 250) else lastRetry

/-- The mathematical (unwrapped) value of `lastRetry + lastRetry / 5` of
line 137; Go integer division truncates toward zero. -/
def retrySum (lastRetry : Int) : Int := lastRetry + Int.tdiv lastRetry 5

/-- Lines 134-140 of `runLoop`: the value of `lastRetry` that is slept after
a failed pass, computed from the value left by the previous iteration. -/
def backoff (lastRetry : Int) : Int :=
  let lastRetry := retryBase lastRetry
  let lastRetry := wrapInt64 (retrySum lastRetry)
  if lastRetry > Hour then Hour else lastRetry

/-- The loop of `runLoop` from a given `lastRetry`, run on the results the
successive calls of `fn` return. The result is the list of durations passed
to `time.Sleep`, in order, and the value of `lastRetry` after the last
iteration. -/
def runLoopFrom (interval : Int) : Int → List Bool → List Int × Int
  | lastRetry, [] => ([], lastRetry)
  | lastRetry, ok :: rest =>
    if ok then
      let r := runLoopFrom interval 0 rest
      (interval :: r.1, r.2)
    else
      let lastRetry := backoff lastRetry
      let r := runLoopFrom interval lastRetry rest
      (lastRetry :: r.1, r.2)

/-- The function `runLoop`: `var lastRetry time.Duration` starts at zero. -/
def runLoop (interval : Int) (outcomes : List Bool) : List Int × Int :=
  runLoopFrom interval 0 outcomes

/-! ## Time values (`time.Time`) -/

/-- A Go `time.Time`: seconds since January 1, year 1 00:00:00 UTC and
nanoseconds within that second, the representation Go keeps internally. -/
structure Time where
  sec : Int
  nsec : Nat
deriving DecidableEq

/-- Go constant `unixToInternal` of package `time`: the seconds between
January 1, year 1 and January 1, 1970. -/
def unixToInternal : Int := (1969 * 365 + 1969 / 4 - 1969 / 100 + 1969 / 400) * 86400

/-- The zero value of `time.Time`, which `var queryStart time.Time` holds:
January 1, year 1 00:00:00 UTC. -/
def Time.zero : Time := ⟨0, 0⟩

/-- Method `Unix()`: seconds elapsed since January 1, 1970 UTC. -/
def Time.Unix (t : Time) : Int := t.sec - unixToInternal

/-- Function `time.Unix(sec, 0)` of an `int64`: the internal seconds are the
`int64` sum `sec + unixToInternal`. -/
def unixTime (sec : Int) : Time := ⟨wrapInt64 (sec + unixToInternal), 0⟩

/-- Chronological order of two instants, the order of a `timestamp` column. -/
def Time.le (a b : Time) : Bool :=
  decide (a.sec < b.sec) || (decide (a.sec = b.sec) && decide (a.nsec ≤ b.nsec))

/-! ## Events, the table `motion`, and the outside world -/

/-- How a call ends: it returns a value, or a run-time panic unwinds it. No
function of the program recovers from a panic, so a panic ends the process. -/
inductive Run (α : Type) where
  | returned (value : α)
  | panicked
deriving DecidableEq

/-- The struct `event` (main.go 119-123). A `float64` decoded from a JSON
number is finite, hence a rational number. -/
structure event where
  ID : String
  StartTime : Rat
  EndTime : Rat
deriving DecidableEq

/-- One row of the table `motion` (main.go 16-21). -/
structure Row where
  id : String
  camera : String
  start : Time
  stop : Time
deriving DecidableEq

/-- The calls the program makes to the database connection and the HTTP
client, as recorded in the trace of a `World`. -/
inductive Effect where
  /-- The cursor query `db.QueryRow("SELECT stop FROM motion WHERE camera = $1 ...", camera)`. -/
  | query (camera : String)
  /-- The request `httpClient.Get(url)`. -/
  | get (url : String)
  /-- The statement `db.Exec("INSERT INTO motion ...", id, camera, start, stop)`. -/
  | exec (row : Row)
deriving DecidableEq

/-- The state outside the program: the rows of table `motion`, the number of
statements sent on the connection so far, the number of HTTP requests made so
far, and the trace of all calls in the order they were made. -/
structure World where
  motion : List Row
  stmts : Nat
  reqs : Nat
  trace : List Effect

/-- What `httpClient.Get` yields: an error, or a response with its status code
and the result of decoding its body into `[]*event` (`none` when the JSON
decoder returns an error). An element of the decoded slice is a pointer: a JSON
`null` element decodes without error to the nil pointer, `none` here. -/
inductive HttpResult where
  | failed
  | response (StatusCode : Int) (body : Option (List (Option event)))

/-- The environment of a run.

* `dbFault n` tells whether the `n`-th statement sent on the connection
  fails; a failed statement changes no row.
* `http n url` is what the `n`-th HTTP request returns when it asks for `url`.
* `int64OutOfRange f` is the result the platform gives to the conversion
  `int64(f)` of a `float64` whose integer part is outside the `int64` range,
  which the Go specification leaves to the implementation (amd64 gives
  `-2^63`).
* `timestamp t` is the value the driver and the server store in a `timestamp`
  column for the argument `t` of `db.Exec`. The driver sends the wall clock
  that `t` shows in its own location, and `time.Unix` gives the location of
  the process, so this is the identity for a process whose zone is UTC. -/
structure Env where
  dbFault : Nat → Bool
  http : Nat → String → HttpResult
  int64OutOfRange : Rat → Int
  timestamp : Time → Time

/-- Go conversion `int64(f)` of a `float64`: the fraction is discarded
(truncation toward zero) when the result fits an `int64`; otherwise the result
is the `int64` the platform gives. -/
def int64 (env : Env) (f : Rat) : Int :=
  if -(2 ^ 63) ≤ Int.tdiv f.num f.den ∧ Int.tdiv f.num f.den < 2 ^ 63 then Int.tdiv f.num f.den
  else wrapInt64 (env.int64OutOfRange f)

/-- The errors `scrapeCamera` can return; `nil` is `none : Option Error`. -/
inductive Error where
  /-- The text "finding cursor position: ..." (line 79). -/
  | findingCursor
  /-- The error of `httpClient.Get` (line 103). -/
  | get
  /-- The text "unexpected status code: %d" (line 108). -/
  | statusCode (code : Int)
  /-- The error of the JSON decoder (line 113). -/
  | decode
  /-- The text "inserting motion event into database: ..." (line 90). -/
  | inserting
deriving DecidableEq

/-- The error of `QueryRow(...).Scan`: `pgx.ErrNoRows`, or any other error. -/
inductive ScanError where
  | ErrNoRows
  | other
deriving DecidableEq

/-- The greatest instant of a list, `none` for the empty list. -/
def latest : List Time → Option Time
  | [] => none
  | t :: ts =>
    match latest ts with
    | none => some t
    | some m => if Time.le m t then some t else some m

/-- The result set of `SELECT stop FROM motion WHERE camera = $1 ORDER BY stop
DESC LIMIT 1`: the greatest `stop` among the rows of the camera, if any. -/
def selectStop (motion : List Row) (camera : String) : Option Time :=
  latest ((motion.filter (fun r => decide (r.camera = camera))).map Row.stop)

/-- The effect of `INSERT INTO motion (id, camera, start, stop) VALUES (...) ON
CONFLICT DO NOTHING` on the table: `id` is the primary key, the only unique
constraint, so the row is added unless a row with that `id` exists. -/
def insertOnConflictDoNothing (motion : List Row) (r : Row) : List Row :=
  if motion.any (fun x => decide (x.id = r.id)) then motion else motion ++ [r]

/-- The call `db.QueryRow(..., cameraName).Scan(&dest)` of line 77. It returns
the error, the value of `dest` afterwards (unchanged when there is an error)
and the new world. -/
def queryRowScan (env : Env) (cameraName : String) (dest : Time) (w : World) :
    Option ScanError × Time × World :=
  let w1 : World := { w with stmts := w.stmts + 1, trace := w.trace ++ [Effect.query cameraName] }
  if env.dbFault w.stmts then (some ScanError.other, dest, w1)
  else
    match selectStop w.motion cameraName with
    | none => (some ScanError.ErrNoRows, dest, w1)
    | some t => (none, t, w1)

/-- The call `db.Exec("INSERT ... ON CONFLICT DO NOTHING", ...)` of line 88 with
the row the server receives: whether it returned an error, and the new world. -/
def dbExec (env : Env) (r : Row) (w : World) : Bool × World :=
  let w1 : World := { w with stmts := w.stmts + 1, trace := w.trace ++ [Effect.exec r] }
  if env.dbFault w.stmts then (true, w1)
  else (false, { w1 with motion := insertOnConflictDoNothing w.motion r })

/-! ## The event source client (`listEvents`, main.go 100-117) -/

/-- The URL built by `fmt.Sprintf("%s/api/%s/recordings?after=%d", ...)`. -/
def recordingsURL (baseURL cameraName : String) (after : Int) : String :=
  baseURL ++ "/api/" ++ cameraName ++ "/recordings?after=" ++ toString after

/-- The function `listEvents`. -/
def listEvents (env : Env) (baseURL cameraName : String) (start : Time) (w : World) :
    Except Error (List (Option event)) × World :=
  let url := recordingsURL baseURL cameraName start.Unix
  let w1 : World := { w with reqs := w.reqs + 1, trace := w.trace ++ [Effect.get url] }
  match env.http w.reqs url with
  | HttpResult.failed => (Except.error Error.get, w1)
  | HttpResult.response StatusCode body =>
    if StatusCode ≠ 200 then (Except.error (Error.statusCode StatusCode), w1)
    else
      match body with
      | none => (Except.error Error.decode, w1)
      | some events => (Except.ok events, w1)

/-! ## The camera synchroniser (`scrapeCamera`, main.go 72-96) -/

/-- The row the server receives from line 88 for an event of a camera: the
arguments are `event.ID`, `cameraName`, `time.Unix(int64(event.StartTime), 0)`
and `time.Unix(int64(event.EndTime), 0)`. -/
def eventRow (env : Env) (cameraName : String) (e : event) : Row :=
  ⟨e.ID, cameraName, env.timestamp (unixTime (int64 env e.StartTime)),
    env.timestamp (unixTime (int64 env e.EndTime))⟩

/-- The loop of lines 87-93 over the fetched slice. Evaluating `event.ID` on a
nil pointer is a run-time panic, raised before the statement is sent. -/
def insertEvents (env : Env) (cameraName : String) :
    List (Option event) → World → Run (Option Error) × World
  | [], w => (Run.returned none, w)
  | none :: _, w => (Run.panicked, w)
  | some e :: rest, w =>
    let r := dbExec env (eventRow env cameraName e) w
    if r.1 then (Run.returned (some Error.inserting), r.2)
    else insertEvents env cameraName rest r.2

/-- The function `scrapeCamera`: how the call ends (the error it returns, or a
panic) and the new world. -/
def scrapeCamera (env : Env) (baseURL cameraName : String) (w : World) :
    Run (Option Error) × World :=
  let q := queryRowScan env cameraName Time.zero w
  if q.1 = some ScanError.other then (Run.returned (some Error.findingCursor), q.2.2)
  else
    let l := listEvents env baseURL cameraName q.2.1 q.2.2
    match l.1 with
    | Except.error err => (Run.returned (some err), l.2)
    | Except.ok events => insertEvents env cameraName events l.2

/-! ## The pass over all cameras (the closure of `main`, main.go 60-69) -/

/-- The loop of lines 62-67, from a given value of `ok`. A panic of
`scrapeCamera` unwinds the closure: the cameras after it are not scraped. -/
def passLoop (env : Env) (FrigateURL : String) : List String → Bool → World → Run Bool × World
  | [], ok, w => (Run.returned ok, w)
  | camera :: rest, ok, w =>
    let r := scrapeCamera env FrigateURL camera w
    match r.1 with
    | Run.panicked => (Run.panicked, r.2)
    | Run.returned err =>
      if err ≠ none then passLoop env FrigateURL rest false r.2
      else passLoop env FrigateURL rest ok r.2

/-- The closure given to `runLoop`: `ok = true`, then the loop. -/
def pass (env : Env) (FrigateURL : String) (Cameras : List String) (w : World) : Run Bool × World :=
  passLoop env FrigateURL Cameras true w

/-! ## Names used in the statements -/

/-- The values `lastRetry` can hold between two iterations of `runLoop`: zero,
or a delay between 300ms and one hour. -/
def RetryInv (lastRetry : Int) : Prop :=
  lastRetry = 0 ∨ (300000000 ≤ lastRetry ∧ lastRetry ≤ 3600000000000)

/-- The value of the variable `queryStart` at line 81 of `scrapeCamera`, after
the cursor query of line 77. -/
def queryStart (env : Env) (cameraName : String) (w : World) : Time :=
  (queryRowScan env cameraName Time.zero w).2.1

/-- The cameras of the cursor queries of a trace, in order. Every call of
`scrapeCamera` starts with one cursor query for its camera. -/
def queriedCameras : List Effect → List String
  | [] => []
  | Effect.query camera :: rest => camera :: queriedCameras rest
  | _ :: rest => queriedCameras rest

/-- The specification of a pass, in the words of the claim: `scrapeCamera` is
called once for every camera, in order, whatever the earlier calls did, each
call starting in the world the previous call left; the result is the list of
how the calls ended and the final world. -/
def scrapeEach (env : Env) (FrigateURL : String) :
    List String → World → List (Run (Option Error)) × World
  | [], w => ([], w)
  | camera :: rest, w =>
    let r := scrapeCamera env FrigateURL camera w
    let t := scrapeEach env FrigateURL rest r.2
    (r.1 :: t.1, t.2)

/-- The world in which the insert loop of `scrapeCamera` starts when the cursor
query did not fail: one statement and one request have been made. -/
def fetchedWorld (env : Env) (baseURL cameraName : String) (w : World) : World :=
  { w with stmts := w.stmts + 1, reqs := w.reqs + 1,
           trace := w.trace ++ [Effect.query cameraName,
             Effect.get (recordingsURL baseURL cameraName (queryStart env cameraName w).Unix)] }

/-! ## Concrete inputs used by the examples -/

/-- A world with an empty table and nothing done yet. -/
def emptyWorld : World := ⟨[], 0, 0, []⟩

/-- The decoded body `[{"id":"a","start_time":100,"end_time":110},
{"id":"b","start_time":120,"end_time":130}]`. -/
def pageAB : List (Option event) := [some ⟨"a", 100, 110⟩, some ⟨"b", 120, 130⟩]

/-- An environment on amd64 in zone UTC where every request returns `pageAB`
with status 200 and only statement number 1, the first insert after a cursor
query, fails. -/
def envFirstInsertFails : Env :=
  ⟨fun n => decide (n = 1), fun _ _ => HttpResult.response 200 (some pageAB),
    fun _ => -(2 ^ 63), fun t => t⟩

/-- An environment on amd64 in zone UTC where nothing fails and every request
returns `pageAB`. -/
def envHealthy : Env :=
  ⟨fun _ => false, fun _ _ => HttpResult.response 200 (some pageAB), fun _ => -(2 ^ 63),
    fun t => t⟩

/-- An environment on amd64 in zone UTC where no statement fails and every
request gets status 500. -/
def envStatus500 : Env :=
  ⟨fun _ => false, fun _ _ => HttpResult.response 500 (some pageAB), fun _ => -(2 ^ 63),
    fun t => t⟩

/-- An environment on amd64 in zone UTC where no statement fails, the requests
for camera "garage" get status 500 and every other request returns `pageAB`. -/
def envGarageDown : Env :=
  ⟨fun _ => false, fun _ url =>
    if url = "http://frigate/api/garage/recordings?after=-62135596800"
    then HttpResult.response 500 none
    else HttpResult.response 200 (some pageAB), fun _ => -(2 ^ 63), fun t => t⟩

/-- An environment on amd64 in zone UTC where no statement fails and every
request returns status 200 with the body `[null]`. -/
def envNullPage : Env :=
  ⟨fun _ => false, fun _ _ => HttpResult.response 200 (some [none]), fun _ => -(2 ^ 63),
    fun t => t⟩

/-- An environment on amd64 in zone UTC where no statement fails, the requests
for camera "garage" return status 200 with the body `[null]` and every other
request returns `pageAB`. -/
def envGarageNull : Env :=
  ⟨fun _ => false, fun _ url =>
    if url = "http://frigate/api/garage/recordings?after=-62135596800"
    then HttpResult.response 200 (some [none])
    else HttpResult.response 200 (some pageAB), fun _ => -(2 ^ 63), fun t => t⟩

/-- A world whose table holds one event of "front-door" that stopped at Unix
second 110 and one event of "garage" that stopped at Unix second 999. -/
def storedWorld : World :=
  ⟨[⟨"a", "front-door", unixTime 100, unixTime 110⟩,
    ⟨"z", "garage", unixTime 900, unixTime 999⟩], 0, 0, []⟩
/-! ## Properties of the run scheduler -/

/-- Inside the `int64` range, wrap-around changes nothing. -/
theorem wrapInt64_of_inRange (x : Int) (hlo : -(2 ^ 63) ≤ x) (hhi : x < 2 ^ 63) :
    wrapInt64 x = x := by
  unfold wrapInt64
  omega

theorem backoff_zero : backoff 0 = 300000000 := by decide

theorem retryBase_bounds (l : Int) (h : RetryInv l) :
    250000000 ≤ retryBase l ∧ retryBase l ≤ 3600000000000 := by
  unfold retryBase
  rcases h with h | h
  · subst h
    decide
  · have : l ≠ 0 := by omega
    rw [if_neg this]
    omega

theorem retrySum_eq (l : Int) (h : 0 ≤ l) : retrySum l = l + l / 5 := by
  unfold retrySum
  rw [Int.tdiv_eq_ediv h (by decide)]

/-- From a non-zero value in range, `backoff` adds a fifth and caps at one hour. -/
theorem backoff_of_pos (l : Int) (h1 : 0 < l) (h2 : l ≤ 3600000000000) :
    backoff l = if l + l / 5 > Hour then Hour else l + l / 5 := by
  have hne : l ≠ 0 := by omega
  unfold backoff
  simp only [retryBase, if_neg hne]
  rw [retrySum_eq l (by omega), wrapInt64_of_inRange _ (by omega) (by omega)]

theorem backoff_bounds (l : Int) (h : RetryInv l) :
    300000000 ≤ backoff l ∧ backoff l ≤ 3600000000000 := by
  rcases h with h | h
  · subst h
    rw [backoff_zero]
    omega
  · rw [backoff_of_pos l (by omega) h.2]
    unfold Hour
    split <;> omega

theorem backoff_inv (l : Int) (h : RetryInv l) : RetryInv (backoff l) :=
  Or.inr (backoff_bounds l h)

theorem runLoopFrom_nil (interval l : Int) : runLoopFrom interval l [] = ([], l) := rfl

theorem runLoopFrom_true (interval l : Int) (rest : List Bool) :
    runLoopFrom interval l (true :: rest) =
      (interval :: (runLoopFrom interval 0 rest).1, (runLoopFrom interval 0 rest).2) := by
  simp [runLoopFrom]

theorem runLoopFrom_false (interval l : Int) (rest : List Bool) :
    runLoopFrom interval l (false :: rest) =
      (backoff l :: (runLoopFrom interval (backoff l) rest).1,
        (runLoopFrom interval (backoff l) rest).2) := by
  simp [runLoopFrom]

theorem runLoopFrom_length (interval : Int) (outcomes : List Bool) :
    ∀ l, (runLoopFrom interval l outcomes).1.length = outcomes.length := by
  induction outcomes with
  | nil => intro l; rfl
  | cons ok rest ih =>
    intro l
    cases ok
    · rw [runLoopFrom_false]; simp [ih]
    · rw [runLoopFrom_true]; simp [ih]

/-- The loop run on `pre ++ post` is the loop run on `pre`, continued on
`post` from the state `pre` left. -/
theorem runLoopFrom_append (interval : Int) (pre post : List Bool) :
    ∀ l, runLoopFrom interval l (pre ++ post) =
      ((runLoopFrom interval l pre).1 ++
          (runLoopFrom interval (runLoopFrom interval l pre).2 post).1,
        (runLoopFrom interval (runLoopFrom interval l pre).2 post).2) := by
  induction pre with
  | nil => intro l; simp [runLoopFrom_nil]
  | cons ok rest ih =>
    intro l
    cases ok
    · simp only [List.cons_append, runLoopFrom_false, ih, List.cons_append]
    · simp only [List.cons_append, runLoopFrom_true, ih, List.cons_append]

theorem runLoopFrom_inv (interval : Int) (outcomes : List Bool) :
    ∀ l, RetryInv l → RetryInv (runLoopFrom interval l outcomes).2 := by
  induction outcomes with
  | nil => intro l h; exact h
  | cons ok rest ih =>
    intro l h
    cases ok
    · rw [runLoopFrom_false]; exact ih _ (backoff_inv l h)
    · rw [runLoopFrom_true]; exact ih _ (Or.inl rfl)

theorem runLoopFrom_failed_delay (interval : Int) (outcomes : List Bool) :
    ∀ l, RetryInv l → ∀ i : Nat, outcomes[i]? = some false →
      ∃ d : Int, (runLoopFrom interval l outcomes).1[i]? = some d ∧
        300000000 ≤ d ∧ d ≤ 3600000000000 := by
  induction outcomes with
  | nil => intro l _ i hi; simp at hi
  | cons ok rest ih =>
    intro l h i hi
    cases i with
    | zero =>
      simp at hi
      subst hi
      rw [runLoopFrom_false]
      exact ⟨backoff l, by simp, backoff_bounds l h⟩
    | succ j =>
      simp at hi
      cases ok
      · rw [runLoopFrom_false]
        simpa using ih _ (backoff_inv l h) j hi
      · rw [runLoopFrom_true]
        simpa using ih _ (Or.inl rfl) j hi

theorem replicate_false_head (interval : Int) (n : Nat) (l : Int) (hn : 0 < n) :
    (runLoopFrom interval l (List.replicate n false)).1[0]? = some (backoff l) := by
  obtain ⟨m, rfl⟩ : ∃ m, n = m + 1 := ⟨n - 1, by omega⟩
  rw [List.replicate_succ, runLoopFrom_false]
  simp

theorem replicate_false_next (interval : Int) (n : Nat) :
    ∀ (l : Int) (k : Nat) (d : Int), k + 1 < n →
      (runLoopFrom interval l (List.replicate n false)).1[k]? = some d →
      (runLoopFrom interval l (List.replicate n false)).1[k + 1]? = some (backoff d) := by
  induction n with
  | zero => intro l k d hk; omega
  | succ m ih =>
    intro l k d hk hd
    rw [List.replicate_succ, runLoopFrom_false] at hd ⊢
    cases k with
    | zero =>
      simp at hd
      subst hd
      simpa using replicate_false_head interval m (backoff l) (by omega)
    | succ j =>
      simp at hd
      simpa using ih (backoff l) j d (by omega) hd

theorem replicate_false_bounds (interval : Int) (n : Nat) (l : Int) (hl : RetryInv l)
    (k : Nat) (d : Int)
    (hd : (runLoopFrom interval l (List.replicate n false)).1[k]? = some d) :
    300000000 ≤ d ∧ d ≤ 3600000000000 := by
  have hk : k < n := by
    have h := (List.getElem?_eq_some_iff.mp hd).1
    simpa [runLoopFrom_length] using h
  obtain ⟨d', hd', hb⟩ := runLoopFrom_failed_delay interval (List.replicate n false) l hl k
    (by simp [List.getElem?_replicate, hk])
  rw [hd] at hd'
  cases hd'
  exact hb

/-- C1 (as amended): from a fresh scheduler, the first failed pass sleeps 300ms
(250ms plus a fifth of it), and each further consecutive failed pass sleeps the
previous delay plus a fifth of it, the fifth being an integer division of
nanoseconds, or one hour when that sum exceeds one hour. When the previous
delay is a whole multiple of 5ns and the sum does not exceed one hour, the new
delay is exactly 1.2 times the previous one. -/
theorem runLoop_consecutive_failures (interval : Int) (n : Nat) :
    (0 < n → (runLoop interval (List.replicate n false)).1[0]? = some (300 * Millisecond)) ∧
    (∀ (k : Nat) (d : Int), k + 1 < n →
      (runLoop interval (List.replicate n false)).1[k]? = some d →
      (runLoop interval (List.replicate n false)).1[k + 1]? =
        some (if d + Int.tdiv d 5 > Hour then Hour else d + Int.tdiv d 5)) ∧
    (∀ (k : Nat) (d : Int), k + 1 < n →
      (runLoop interval (List.replicate n false)).1[k]? = some d →
      5 ∣ d → 6 * d ≤ 5 * Hour →
      ∃ d2 : Int, (runLoop interval (List.replicate n false)).1[k + 1]? = some d2 ∧
        5 * d2 = 6 * d) := by
  have hnext : ∀ (k : Nat) (d : Int), k + 1 < n →
      (runLoop interval (List.replicate n false)).1[k]? = some d →
      (runLoop interval (List.replicate n false)).1[k + 1]? =
        some (if d + d / 5 > Hour then Hour else d + d / 5) ∧ 0 < d := by
    intro k d hk hd
    have hb := replicate_false_bounds interval n 0 (Or.inl rfl) k d hd
    have h := replicate_false_next interval n 0 k d hk hd
    rw [backoff_of_pos d (by omega) hb.2] at h
    exact ⟨h, by omega⟩
  refine ⟨?_, ?_, ?_⟩
  · intro hn
    have h := replicate_false_head interval n 0 hn
    rw [backoff_zero] at h
    simpa [runLoop, Millisecond] using h
  · intro k d hk hd
    obtain ⟨h, hpos⟩ := hnext k d hk hd
    rw [Int.tdiv_eq_ediv (by omega) (by decide)]
    exact h
  · intro k d hk hd hdvd hle
    obtain ⟨h, hpos⟩ := hnext k d hk hd
    obtain ⟨c, rfl⟩ := hdvd
    unfold Hour at h hle
    refine ⟨5 * c + 5 * c / 5, ?_, by omega⟩
    rw [h, if_neg (by omega)]

theorem runLoop_consecutive_failures_witness :
    (runLoop Hour (List.replicate 3 false)).1[0]? = some (300 * Millisecond) ∧
    (runLoop Hour (List.replicate 3 false)).1[1 + 1]? =
      some (if 360000000 + Int.tdiv 360000000 5 > Hour then Hour
        else 360000000 + Int.tdiv 360000000 5) ∧
    (∃ d2 : Int, (runLoop Hour (List.replicate 3 false)).1[1 + 1]? = some d2 ∧
      5 * d2 = 6 * 360000000) :=
  ⟨(runLoop_consecutive_failures Hour 3).1 (by decide),
   (runLoop_consecutive_failures Hour 3).2.1 1 360000000 (by decide) (by decide),
   (runLoop_consecutive_failures Hour 3).2.2 1 360000000 (by decide) (by decide)
     (by decide) (by decide)⟩

/-- C1 (as stated) fails: the first failed pass of a fresh scheduler sleeps
300ms, not 250ms, and the tenth consecutive delay is not 1.2 times the ninth
although 1.2 times the ninth is far below one hour. -/
theorem runLoop_first_delay_counterexample :
    (runLoop Hour [false, false, false]).1 = [300 * Millisecond, 360 * Millisecond, 432 * Millisecond] ∧
    (runLoop Hour [false, false, false]).1 ≠ [250 * Millisecond, 300 * Millisecond, 360 * Millisecond] ∧
    (runLoop Hour (List.replicate 10 false)).1.drop 8 = [1289945088, 1547934105] ∧
    5 * (1547934105 : Int) ≠ 6 * 1289945088 := by
  decide

/-- C2: whatever the interval and the sequence of pass outcomes, every delay
slept after a failed pass lies between 250ms and one hour, and before every
failed pass the sum `lastRetry + lastRetry / 5` computed from the state the
loop is in lies inside the `int64` range, so the addition does not wrap. -/
theorem runLoop_delay_bounds (interval : Int) (outcomes : List Bool) :
    (∀ i : Nat, outcomes[i]? = some false →
      ∃ d : Int, (runLoop interval outcomes).1[i]? = some d ∧
        250 * Millisecond ≤ d ∧ d ≤ Hour) ∧
    (-(2 ^ 63) ≤ retrySum (retryBase (runLoop interval outcomes).2) ∧
      retrySum (retryBase (runLoop interval outcomes).2) < 2 ^ 63 ∧
      wrapInt64 (retrySum (retryBase (runLoop interval outcomes).2)) =
        retrySum (retryBase (runLoop interval outcomes).2)) := by
  constructor
  · intro i hi
    obtain ⟨d, hd, h1, h2⟩ := runLoopFrom_failed_delay interval outcomes 0 (Or.inl rfl) i hi
    refine ⟨d, hd, ?_, ?_⟩
    · unfold Millisecond; omega
    · unfold Hour; omega
  · have hinv := runLoopFrom_inv interval outcomes 0 (Or.inl rfl)
    have hb := retryBase_bounds _ hinv
    have hs := retrySum_eq (retryBase (runLoop interval outcomes).2)
      (by unfold runLoop; omega)
    unfold runLoop at hs ⊢
    have h1 : -(2 ^ 63) ≤ retrySum (retryBase (runLoopFrom interval 0 outcomes).2) := by
      rw [hs]; omega
    have h2 : retrySum (retryBase (runLoopFrom interval 0 outcomes).2) < 2 ^ 63 := by
      rw [hs]; omega
    exact ⟨h1, h2, wrapInt64_of_inRange _ h1 h2⟩

theorem runLoop_delay_bounds_witness :
    ∃ d : Int, (runLoop Hour [false, true, false]).1[2]? = some d ∧
      250 * Millisecond ≤ d ∧ d ≤ Hour :=
  (runLoop_delay_bounds Hour [false, true, false]).1 2 (by decide)

/-- C3: in every state, a successful pass sleeps exactly the configured
interval and leaves `lastRetry` at zero, so the failed pass that follows a
success sleeps what a fresh scheduler sleeps on its first failed pass,
whatever the passes before the success were. -/
theorem runLoop_success_resets (interval : Int) (pre : List Bool) (lastRetry : Int) :
    runLoopFrom interval lastRetry [true] = ([interval], 0) ∧
    runLoop interval (pre ++ [true]) = ((runLoop interval pre).1 ++ [interval], 0) ∧
    (runLoop interval (pre ++ [true, false])).1 =
      (runLoop interval pre).1 ++ [interval] ++ (runLoop interval [false]).1 ∧
    (runLoopFrom interval lastRetry [true, false]).1 =
      [interval] ++ (runLoop interval [false]).1 := by
  refine ⟨?_, ?_, ?_, ?_⟩
  · simp [runLoopFrom]
  · unfold runLoop
    rw [runLoopFrom_append]
    simp [runLoopFrom]
  · unfold runLoop
    rw [runLoopFrom_append]
    simp [runLoopFrom]
  · simp [runLoop, runLoopFrom]

/-! ## Properties of the database and HTTP calls -/

theorem dbExec_fst (env : Env) (r : Row) (w : World) : (dbExec env r w).1 = env.dbFault w.stmts := by
  unfold dbExec
  cases env.dbFault w.stmts <;> simp

theorem dbExec_stmts (env : Env) (r : Row) (w : World) : (dbExec env r w).2.stmts = w.stmts + 1 := by
  unfold dbExec
  cases env.dbFault w.stmts <;> simp

theorem dbExec_reqs (env : Env) (r : Row) (w : World) : (dbExec env r w).2.reqs = w.reqs := by
  unfold dbExec
  cases env.dbFault w.stmts <;> simp

theorem dbExec_trace (env : Env) (r : Row) (w : World) :
    (dbExec env r w).2.trace = w.trace ++ [Effect.exec r] := by
  unfold dbExec
  cases env.dbFault w.stmts <;> simp

theorem dbExec_motion_fault (env : Env) (r : Row) (w : World) (h : env.dbFault w.stmts = true) :
    (dbExec env r w).2.motion = w.motion := by
  unfold dbExec
  simp [h]

theorem dbExec_motion_ok (env : Env) (r : Row) (w : World) (h : env.dbFault w.stmts = false) :
    (dbExec env r w).2.motion = insertOnConflictDoNothing w.motion r := by
  unfold dbExec
  simp [h]

theorem queryRowScan_world (env : Env) (cameraName : String) (dest : Time) (w : World) :
    (queryRowScan env cameraName dest w).2.2 =
      { w with stmts := w.stmts + 1, trace := w.trace ++ [Effect.query cameraName] } := by
  unfold queryRowScan
  cases env.dbFault w.stmts
  · cases selectStop w.motion cameraName <;> simp
  · simp

theorem queryRowScan_other_iff (env : Env) (cameraName : String) (dest : Time) (w : World) :
    (queryRowScan env cameraName dest w).1 = some ScanError.other ↔ env.dbFault w.stmts = true := by
  unfold queryRowScan
  cases env.dbFault w.stmts
  · cases selectStop w.motion cameraName <;> simp
  · simp

theorem queryRowScan_dest (env : Env) (cameraName : String) (dest : Time) (w : World)
    (h : env.dbFault w.stmts = false) :
    (queryRowScan env cameraName dest w).2.1 = (selectStop w.motion cameraName).getD dest := by
  unfold queryRowScan
  rw [h]
  cases selectStop w.motion cameraName <;> simp

theorem listEvents_world (env : Env) (baseURL cameraName : String) (start : Time) (w : World) :
    (listEvents env baseURL cameraName start w).2 =
      { w with reqs := w.reqs + 1,
               trace := w.trace ++ [Effect.get (recordingsURL baseURL cameraName start.Unix)] } := by
  rcases h : env.http w.reqs (recordingsURL baseURL cameraName start.Unix) with _ | ⟨code, body⟩
  · simp [listEvents, h]
  · by_cases hc : code = 200
    · cases body <;> simp [listEvents, h, hc]
    · simp [listEvents, h, hc]

theorem listEvents_ok_iff (env : Env) (baseURL cameraName : String) (start : Time) (w : World)
    (page : List (Option event)) :
    (listEvents env baseURL cameraName start w).1 = Except.ok page ↔
      env.http w.reqs (recordingsURL baseURL cameraName start.Unix) =
        HttpResult.response 200 (some page) := by
  rcases h : env.http w.reqs (recordingsURL baseURL cameraName start.Unix) with _ | ⟨code, body⟩
  · simp [listEvents, h]
  · by_cases hc : code = 200
    · cases body <;> simp [listEvents, h, hc]
    · simp [listEvents, h, hc]

theorem listEvents_status (env : Env) (baseURL cameraName : String) (start : Time) (w : World)
    (code : Int) (body : Option (List (Option event))) (hc : code ≠ 200)
    (h : env.http w.reqs (recordingsURL baseURL cameraName start.Unix) =
      HttpResult.response code body) :
    (listEvents env baseURL cameraName start w).1 = Except.error (Error.statusCode code) := by
  unfold listEvents
  simp [h, hc]

/-! ## Properties of the insert loop -/

theorem insertEvents_nil (env : Env) (cameraName : String) (w : World) :
    insertEvents env cameraName [] w = (Run.returned none, w) := rfl

/-- At a nil element the loop panics: no statement is sent for it or for the
elements after it. -/
theorem insertEvents_cons_null (env : Env) (cameraName : String) (rest : List (Option event))
    (w : World) : insertEvents env cameraName (none :: rest) w = (Run.panicked, w) := rfl

theorem insertEvents_cons_fault (env : Env) (cameraName : String) (e : event)
    (rest : List (Option event)) (w : World) (h : env.dbFault w.stmts = true) :
    insertEvents env cameraName (some e :: rest) w =
      (Run.returned (some Error.inserting), (dbExec env (eventRow env cameraName e) w).2) := by
  simp [insertEvents, dbExec_fst, h]

theorem insertEvents_cons_ok (env : Env) (cameraName : String) (e : event)
    (rest : List (Option event)) (w : World) (h : env.dbFault w.stmts = false) :
    insertEvents env cameraName (some e :: rest) w =
      insertEvents env cameraName rest (dbExec env (eventRow env cameraName e) w).2 := by
  simp [insertEvents, dbExec_fst, h]

/-- The loop returns `nil` exactly when the slice has no nil element and none
of the statements it would send for the events, one after the other, fails. -/
theorem insertEvents_none_iff (env : Env) (cameraName : String) (page : List (Option event)) :
    ∀ w : World, (insertEvents env cameraName page w).1 = Run.returned none ↔
      (∀ x ∈ page, x ≠ none) ∧
      ∀ i : Nat, i < page.length → env.dbFault (w.stmts + i) = false := by
  induction page with
  | nil => intro w; simp [insertEvents_nil]
  | cons x rest ih =>
    intro w
    cases x with
    | none =>
      rw [insertEvents_cons_null]
      simp
    | some e =>
      cases hf : env.dbFault w.stmts with
      | true =>
        rw [insertEvents_cons_fault env cameraName e rest w hf]
        simp only [Run.returned.injEq, reduceCtorEq, false_iff]
        rintro ⟨_, h⟩
        have := h 0 (by simp)
        simp [hf] at this
      | false =>
        rw [insertEvents_cons_ok env cameraName e rest w hf, ih, dbExec_stmts]
        constructor
        · rintro ⟨h0, h⟩
          refine ⟨?_, ?_⟩
          · intro y hy
            rcases List.mem_cons.mp hy with rfl | hy
            · simp
            · exact h0 y hy
          · intro i hi
            cases i with
            | zero => simpa using hf
            | succ j =>
              have := h j (by simpa using hi)
              rw [← this]
              congr 1
              omega
        · rintro ⟨h0, h⟩
          refine ⟨fun y hy => h0 y (List.mem_cons_of_mem _ hy), ?_⟩
          intro i hi
          have := h (i + 1) (by simpa using hi)
          rw [← this]
          congr 1
          omega

/-- On a slice without nil element and with no failing statement the loop
sends one statement per event, in order, and every row is upserted. -/
theorem insertEvents_all (env : Env) (cameraName : String) (events : List event) :
    ∀ w : World, (∀ i : Nat, i < events.length → env.dbFault (w.stmts + i) = false) →
      (insertEvents env cameraName (events.map some) w).1 = Run.returned none ∧
      (insertEvents env cameraName (events.map some) w).2.trace =
        w.trace ++ events.map (fun e => Effect.exec (eventRow env cameraName e)) ∧
      (insertEvents env cameraName (events.map some) w).2.motion =
        (events.map (eventRow env cameraName)).foldl insertOnConflictDoNothing w.motion := by
  induction events with
  | nil => intro w _; simp [insertEvents_nil]
  | cons e rest ih =>
    intro w h
    have hf : env.dbFault w.stmts = false := by simpa using h 0 (by simp)
    rw [List.map_cons, insertEvents_cons_ok env cameraName e _ w hf]
    have h2 : ∀ i : Nat, i < rest.length →
        env.dbFault ((dbExec env (eventRow env cameraName e) w).2.stmts + i) = false := by
      intro i hi
      rw [dbExec_stmts]
      have := h (i + 1) (by simpa using hi)
      rw [← this]
      congr 1
      omega
    obtain ⟨h3, h4, h5⟩ := ih _ h2
    refine ⟨h3, ?_, ?_⟩
    · rw [h4, dbExec_trace]; simp
    · rw [h5, dbExec_motion_ok env _ w hf]; simp

/-- On a slice without nil element, when the statement of the event at
position `i` is the first to fail, the loop has sent the statements of the
events up to and including that one, and none for the events after it. -/
theorem insertEvents_first_fault (env : Env) (cameraName : String) (events : List event) :
    ∀ (w : World) (i : Nat), i < events.length → env.dbFault (w.stmts + i) = true →
      (∀ j : Nat, j < i → env.dbFault (w.stmts + j) = false) →
      (insertEvents env cameraName (events.map some) w).1 =
        Run.returned (some Error.inserting) ∧
      (insertEvents env cameraName (events.map some) w).2.trace =
        w.trace ++ (events.take (i + 1)).map (fun e => Effect.exec (eventRow env cameraName e)) ∧
      (insertEvents env cameraName (events.map some) w).2.motion =
        ((events.take i).map (eventRow env cameraName)).foldl insertOnConflictDoNothing
          w.motion := by
  induction events with
  | nil => intro w i hi; simp at hi
  | cons e rest ih =>
    intro w i hi hfault hbefore
    rw [List.map_cons]
    cases i with
    | zero =>
      have hf : env.dbFault w.stmts = true := by simpa using hfault
      rw [insertEvents_cons_fault env cameraName e _ w hf]
      refine ⟨rfl, ?_, ?_⟩
      · rw [dbExec_trace]; simp
      · rw [dbExec_motion_fault env _ w hf]; simp
    | succ j =>
      have hf : env.dbFault w.stmts = false := by simpa using hbefore 0 (by omega)
      rw [insertEvents_cons_ok env cameraName e _ w hf]
      have h2 : env.dbFault ((dbExec env (eventRow env cameraName e) w).2.stmts + j) = true := by
        rw [dbExec_stmts, ← hfault]
        congr 1
        omega
      have h3 : ∀ k : Nat, k < j →
          env.dbFault ((dbExec env (eventRow env cameraName e) w).2.stmts + k) = false := by
        intro k hk
        rw [dbExec_stmts]
        have := hbefore (k + 1) (by omega)
        rw [← this]
        congr 1
        omega
      obtain ⟨h4, h5, h6⟩ := ih _ j (by simpa using hi) h2 h3
      refine ⟨h4, ?_, ?_⟩
      · rw [h5, dbExec_trace]; simp
      · rw [h6, dbExec_motion_ok env _ w hf]; simp

/-- A slice with a nil element never makes the loop return `nil`: it ends in
the error of an earlier failing statement or in a panic. -/
theorem insertEvents_null_not_nil (env : Env) (cameraName : String) (page : List (Option event))
    (w : World) (h : none ∈ page) :
    (insertEvents env cameraName page w).1 ≠ Run.returned none := by
  intro hn
  exact ((insertEvents_none_iff env cameraName page w).1 hn).1 none h rfl

/-! ## Properties of `scrapeCamera` -/

theorem scrapeCamera_of_fault (env : Env) (baseURL cameraName : String) (w : World)
    (h : env.dbFault w.stmts = true) :
    scrapeCamera env baseURL cameraName w =
      (Run.returned (some Error.findingCursor),
        { w with stmts := w.stmts + 1, trace := w.trace ++ [Effect.query cameraName] }) := by
  unfold scrapeCamera
  simp only [queryRowScan_world]
  rw [if_pos ((queryRowScan_other_iff env cameraName Time.zero w).2 h)]

theorem listEvents_after_query (env : Env) (baseURL cameraName : String) (w : World) :
    (listEvents env baseURL cameraName (queryRowScan env cameraName Time.zero w).2.1
      (queryRowScan env cameraName Time.zero w).2.2).2 = fetchedWorld env baseURL cameraName w := by
  rw [listEvents_world, queryRowScan_world]
  simp [fetchedWorld, queryStart]

theorem scrapeCamera_of_ok (env : Env) (baseURL cameraName : String) (w : World)
    (h : env.dbFault w.stmts = false) (page : List (Option event))
    (hget : env.http w.reqs (recordingsURL baseURL cameraName (queryStart env cameraName w).Unix) =
      HttpResult.response 200 (some page)) :
    scrapeCamera env baseURL cameraName w =
      insertEvents env cameraName page (fetchedWorld env baseURL cameraName w) := by
  have hne : ¬ (queryRowScan env cameraName Time.zero w).1 = some ScanError.other := by
    rw [queryRowScan_other_iff, h]; simp
  have hl : (listEvents env baseURL cameraName (queryRowScan env cameraName Time.zero w).2.1
      (queryRowScan env cameraName Time.zero w).2.2).1 = Except.ok page := by
    rw [listEvents_ok_iff, queryRowScan_world]
    exact hget
  unfold scrapeCamera
  simp only [if_neg hne, listEvents_after_query, hl]

theorem scrapeCamera_of_error (env : Env) (baseURL cameraName : String) (w : World)
    (h : env.dbFault w.stmts = false) (err : Error)
    (hl : (listEvents env baseURL cameraName (queryRowScan env cameraName Time.zero w).2.1
      (queryRowScan env cameraName Time.zero w).2.2).1 = Except.error err) :
    scrapeCamera env baseURL cameraName w =
      (Run.returned (some err), fetchedWorld env baseURL cameraName w) := by
  have hne : ¬ (queryRowScan env cameraName Time.zero w).1 = some ScanError.other := by
    rw [queryRowScan_other_iff, h]; simp
  unfold scrapeCamera
  simp only [if_neg hne, listEvents_after_query, hl]

theorem fetchedWorld_stmts (env : Env) (baseURL cameraName : String) (w : World) :
    (fetchedWorld env baseURL cameraName w).stmts = w.stmts + 1 := rfl

theorem fetchedWorld_motion (env : Env) (baseURL cameraName : String) (w : World) :
    (fetchedWorld env baseURL cameraName w).motion = w.motion := rfl

theorem fetchedWorld_trace (env : Env) (baseURL cameraName : String) (w : World) :
    (fetchedWorld env baseURL cameraName w).trace =
      w.trace ++ [Effect.query cameraName,
        Effect.get (recordingsURL baseURL cameraName (queryStart env cameraName w).Unix)] := rfl

/-- Whatever fails, the loop adds only insert statements to the trace. -/
theorem insertEvents_trace_execs (env : Env) (cameraName : String) (page : List (Option event)) :
    ∀ w : World, ∃ execs : List Effect,
      (insertEvents env cameraName page w).2.trace = w.trace ++ execs ∧
      ∀ x ∈ execs, ∃ row : Row, x = Effect.exec row := by
  induction page with
  | nil => intro w; exact ⟨[], by simp [insertEvents_nil], by simp⟩
  | cons y rest ih =>
    intro w
    cases y with
    | none => exact ⟨[], by simp [insertEvents_cons_null], by simp⟩
    | some e =>
      cases hf : env.dbFault w.stmts with
      | true =>
        refine ⟨[Effect.exec (eventRow env cameraName e)], ?_, ?_⟩
        · rw [insertEvents_cons_fault env cameraName e rest w hf, dbExec_trace]
        · intro x hx
          exact ⟨_, List.mem_singleton.mp hx⟩
      | false =>
        obtain ⟨execs, h, hall⟩ := ih (dbExec env (eventRow env cameraName e) w).2
        refine ⟨Effect.exec (eventRow env cameraName e) :: execs, ?_, ?_⟩
        · rw [insertEvents_cons_ok env cameraName e rest w hf, h, dbExec_trace]
          simp
        · intro x hx
          rcases List.mem_cons.mp hx with rfl | hx
          · exact ⟨_, rfl⟩
          · exact hall x hx

theorem mem_insertOnConflictDoNothing (motion : List Row) (r x : Row) (h : x ∈ motion) :
    x ∈ insertOnConflictDoNothing motion r := by
  unfold insertOnConflictDoNothing
  split
  · exact h
  · exact List.mem_append_left _ h

/-- After the upsert of a row the table holds a row of its `id`: the row
itself, or the row that held the `id` before. -/
theorem id_mem_insertOnConflictDoNothing (motion : List Row) (r : Row) :
    ∃ x ∈ insertOnConflictDoNothing motion r, x.id = r.id ∧ (x ∈ motion ∨ x = r) := by
  unfold insertOnConflictDoNothing
  split
  · rename_i h
    obtain ⟨x, hx, hid⟩ := List.any_eq_true.mp h
    exact ⟨x, hx, by simpa using hid, Or.inl hx⟩
  · exact ⟨r, by simp, rfl, Or.inr rfl⟩

theorem dbExec_motion_mono (env : Env) (r : Row) (w : World) (x : Row) (h : x ∈ w.motion) :
    x ∈ (dbExec env r w).2.motion := by
  cases hf : env.dbFault w.stmts with
  | true => rw [dbExec_motion_fault env r w hf]; exact h
  | false => rw [dbExec_motion_ok env r w hf]; exact mem_insertOnConflictDoNothing _ _ _ h

/-- The loop removes no row. -/
theorem insertEvents_motion_mono (env : Env) (cameraName : String) (page : List (Option event)) :
    ∀ (w : World) (x : Row), x ∈ w.motion → x ∈ (insertEvents env cameraName page w).2.motion := by
  induction page with
  | nil => intro w x h; exact h
  | cons y rest ih =>
    intro w x h
    cases y with
    | none => rw [insertEvents_cons_null]; exact h
    | some e =>
      cases hf : env.dbFault w.stmts with
      | true =>
        rw [insertEvents_cons_fault env cameraName e rest w hf]
        exact dbExec_motion_mono env _ w x h
      | false =>
        rw [insertEvents_cons_ok env cameraName e rest w hf]
        exact ih _ x (dbExec_motion_mono env _ w x h)

/-- When the loop returns `nil`, every event of the slice has a row of its `id`
in the table: a row that was there before the loop, or the row the loop sent
for an event of that `id`. -/
theorem insertEvents_none_rows (env : Env) (cameraName : String) (page : List (Option event)) :
    ∀ w : World, (insertEvents env cameraName page w).1 = Run.returned none →
      ∀ e : event, some e ∈ page →
        ∃ x ∈ (insertEvents env cameraName page w).2.motion, x.id = e.ID ∧
          (x ∈ w.motion ∨ ∃ e2 : event, some e2 ∈ page ∧ x = eventRow env cameraName e2) := by
  induction page with
  | nil => intro w _ e he; simp at he
  | cons y rest ih =>
    intro w hnone e2 he2
    cases y with
    | none => rw [insertEvents_cons_null] at hnone; simp at hnone
    | some e =>
      cases hf : env.dbFault w.stmts with
      | true =>
        rw [insertEvents_cons_fault env cameraName e rest w hf] at hnone
        simp at hnone
      | false =>
        rw [insertEvents_cons_ok env cameraName e rest w hf] at hnone ⊢
        rcases List.mem_cons.mp he2 with h | h
        · cases h
          obtain ⟨x, hx, hid, hor⟩ :=
            id_mem_insertOnConflictDoNothing w.motion (eventRow env cameraName e2)
          refine ⟨x, insertEvents_motion_mono env cameraName rest _ x ?_, hid, ?_⟩
          · rw [dbExec_motion_ok env _ w hf]
            exact hx
          · rcases hor with hor | hor
            · exact Or.inl hor
            · exact Or.inr ⟨e2, by simp, hor⟩
        · obtain ⟨x, hx, hid, hor⟩ := ih _ hnone e2 h
          refine ⟨x, hx, hid, ?_⟩
          rcases hor with hor | ⟨e3, he3, hx3⟩
          · rw [dbExec_motion_ok env _ w hf] at hor
            unfold insertOnConflictDoNothing at hor
            split at hor
            · exact Or.inl hor
            · rcases List.mem_append.mp hor with hor | hor
              · exact Or.inl hor
              · exact Or.inr ⟨e, by simp, List.mem_singleton.mp hor⟩
          · exact Or.inr ⟨e3, List.mem_cons_of_mem _ he3, hx3⟩

/-- The trace `scrapeCamera` leaves when the cursor query does not fail: the
cursor query, one request, then only insert statements. -/
theorem scrapeCamera_trace_shape (env : Env) (baseURL cameraName : String) (w : World)
    (hq : env.dbFault w.stmts = false) :
    ∃ execs : List Effect,
      (scrapeCamera env baseURL cameraName w).2.trace =
        w.trace ++ [Effect.query cameraName,
          Effect.get (recordingsURL baseURL cameraName (queryStart env cameraName w).Unix)] ++ execs ∧
      ∀ x ∈ execs, ∃ row : Row, x = Effect.exec row := by
  cases hl : (listEvents env baseURL cameraName (queryRowScan env cameraName Time.zero w).2.1
      (queryRowScan env cameraName Time.zero w).2.2).1 with
  | error err =>
    rw [scrapeCamera_of_error env baseURL cameraName w hq err hl]
    exact ⟨[], by simp [fetchedWorld_trace], by simp⟩
  | ok page =>
    have hget := (listEvents_ok_iff env baseURL cameraName _ _ page).1 hl
    rw [queryRowScan_world] at hget
    rw [scrapeCamera_of_ok env baseURL cameraName w hq page hget]
    obtain ⟨execs, h, hall⟩ := insertEvents_trace_execs env cameraName page
      (fetchedWorld env baseURL cameraName w)
    exact ⟨execs, by rw [h, fetchedWorld_trace], hall⟩

/-- The call returns `nil` exactly when the cursor query did not fail with an
error other than `pgx.ErrNoRows`, `listEvents` returned a slice without nil
element, and none of the insert statements of its events fails. -/
theorem scrapeCamera_returns_nil_iff (env : Env) (baseURL cameraName : String) (w : World) :
    (scrapeCamera env baseURL cameraName w).1 = Run.returned none ↔
      (queryRowScan env cameraName Time.zero w).1 ≠ some ScanError.other ∧
      ∃ page : List (Option event),
        (listEvents env baseURL cameraName (queryRowScan env cameraName Time.zero w).2.1
          (queryRowScan env cameraName Time.zero w).2.2).1 = Except.ok page ∧
        (∀ x ∈ page, x ≠ none) ∧
        ∀ i : Nat, i < page.length → env.dbFault (w.stmts + 1 + i) = false := by
  cases hq : env.dbFault w.stmts with
  | true =>
    rw [scrapeCamera_of_fault env baseURL cameraName w hq]
    have := (queryRowScan_other_iff env cameraName Time.zero w).2 hq
    simp [this]
  | false =>
    have hne : (queryRowScan env cameraName Time.zero w).1 ≠ some ScanError.other := by
      rw [Ne, queryRowScan_other_iff, hq]; simp
    cases hl : (listEvents env baseURL cameraName (queryRowScan env cameraName Time.zero w).2.1
        (queryRowScan env cameraName Time.zero w).2.2).1 with
    | error err =>
      rw [scrapeCamera_of_error env baseURL cameraName w hq err hl]
      simp
    | ok page =>
      have hget := (listEvents_ok_iff env baseURL cameraName _ _ page).1 hl
      rw [queryRowScan_world] at hget
      rw [scrapeCamera_of_ok env baseURL cameraName w hq page hget, insertEvents_none_iff,
        fetchedWorld_stmts]
      constructor
      · intro h
        exact ⟨hne, page, rfl, h⟩
      · rintro ⟨_, page2, h2, h3⟩
        cases h2
        exact h3

/-! ## The cursor -/

theorem Time.le_iff (a b : Time) :
    Time.le a b = true ↔ a.sec < b.sec ∨ (a.sec = b.sec ∧ a.nsec ≤ b.nsec) := by
  simp [Time.le]

theorem Time.le_refl (a : Time) : Time.le a a = true := by
  rw [Time.le_iff]; omega

theorem Time.le_trans (a b c : Time) (h1 : Time.le a b = true) (h2 : Time.le b c = true) :
    Time.le a c = true := by
  rw [Time.le_iff] at *; omega

theorem Time.le_of_not_le (a b : Time) (h : ¬ Time.le a b = true) : Time.le b a = true := by
  rw [Time.le_iff] at *; omega

theorem latest_eq_none_iff (ts : List Time) : latest ts = none ↔ ts = [] := by
  cases ts with
  | nil => simp [latest]
  | cons t rest =>
    simp only [latest, reduceCtorEq, iff_false]
    cases latest rest with
    | none => simp
    | some m => simp only []; split <;> simp

/-- The instant `latest` returns belongs to the list and no instant of the list
is later. -/
theorem latest_spec (ts : List Time) :
    ∀ m : Time, latest ts = some m → m ∈ ts ∧ ∀ t ∈ ts, Time.le t m = true := by
  induction ts with
  | nil => intro m h; simp [latest] at h
  | cons t rest ih =>
    intro m h
    simp only [latest] at h
    cases hr : latest rest with
    | none =>
      rw [hr] at h
      simp only [Option.some.injEq] at h
      subst h
      have := (latest_eq_none_iff rest).1 hr
      subst this
      simp [Time.le_refl]
    | some m2 =>
      rw [hr] at h
      obtain ⟨hm2, hall⟩ := ih m2 hr
      by_cases hle : Time.le m2 t = true
      · simp only [] at h
        rw [if_pos hle] at h
        simp only [Option.some.injEq] at h
        subst h
        refine ⟨by simp, ?_⟩
        intro x hx
        rcases List.mem_cons.mp hx with rfl | hx
        · exact Time.le_refl _
        · exact Time.le_trans _ _ _ (hall x hx) hle
      · simp only [] at h
        rw [if_neg hle] at h
        simp only [Option.some.injEq] at h
        subst h
        refine ⟨List.mem_cons_of_mem _ hm2, ?_⟩
        intro x hx
        rcases List.mem_cons.mp hx with rfl | hx
        · exact Time.le_of_not_le _ _ hle
        · exact hall x hx

theorem selectStop_eq_none_iff (motion : List Row) (camera : String) :
    selectStop motion camera = none ↔ ∀ r ∈ motion, r.camera ≠ camera := by
  unfold selectStop
  rw [latest_eq_none_iff]
  simp [List.filter_eq_nil_iff]

theorem selectStop_spec (motion : List Row) (camera : String) (m : Time)
    (h : selectStop motion camera = some m) :
    (∃ r ∈ motion, r.camera = camera ∧ r.stop = m) ∧
      ∀ r ∈ motion, r.camera = camera → Time.le r.stop m = true := by
  unfold selectStop at h
  obtain ⟨hm, hall⟩ := latest_spec _ m h
  constructor
  · obtain ⟨r, hr, rfl⟩ := List.mem_map.mp hm
    obtain ⟨hr1, hr2⟩ := List.mem_filter.mp hr
    exact ⟨r, hr1, by simpa using hr2, rfl⟩
  · intro r hr hc
    apply hall
    exact List.mem_map.mpr ⟨r, List.mem_filter.mpr ⟨hr, by simpa using hc⟩, rfl⟩

theorem toString_zero_unix : toString (Time.zero.Unix) = "-62135596800" := by decide

/-- C6 (as amended): when the cursor query does not fail and the table holds no
row of the camera, `queryStart` keeps the zero value of `time.Time` (January 1,
year 1), whose `Unix()` is -62135596800, and the one request `scrapeCamera`
makes carries the query parameter `after=-62135596800`. -/
theorem scrapeCamera_no_rows_request (env : Env) (baseURL cameraName : String) (w : World)
    (hq : env.dbFault w.stmts = false) (hnone : ∀ r ∈ w.motion, r.camera ≠ cameraName) :
    queryStart env cameraName w = Time.zero ∧
    (queryStart env cameraName w).Unix = -62135596800 ∧
    ∃ execs : List Effect,
      (scrapeCamera env baseURL cameraName w).2.trace =
        w.trace ++ [Effect.query cameraName,
          Effect.get (baseURL ++ "/api/" ++ cameraName ++ "/recordings?after=" ++ "-62135596800")]
          ++ execs ∧
      ∀ x ∈ execs, ∃ row : Row, x = Effect.exec row := by
  have hz : queryStart env cameraName w = Time.zero := by
    unfold queryStart
    rw [queryRowScan_dest env cameraName Time.zero w hq,
      (selectStop_eq_none_iff w.motion cameraName).2 hnone]
    rfl
  refine ⟨hz, by rw [hz]; decide, ?_⟩
  obtain ⟨execs, h1, h2⟩ := scrapeCamera_trace_shape env baseURL cameraName w hq
  refine ⟨execs, ?_, h2⟩
  rw [h1, hz]
  unfold recordingsURL
  rw [toString_zero_unix]

/-- C7: when the cursor query does not fail and the table holds a row of the
camera, `queryStart` is the `stop` of one of the rows of that camera and no row
of that camera has a later `stop` (rows of other cameras play no part), its
Unix seconds are the greatest among those rows, and the one request
`scrapeCamera` makes carries `after` equal to those Unix seconds. -/
theorem scrapeCamera_cursor_is_latest_stop (env : Env) (baseURL cameraName : String) (w : World)
    (hq : env.dbFault w.stmts = false) (hsome : ∃ r ∈ w.motion, r.camera = cameraName) :
    (∃ r ∈ w.motion, r.camera = cameraName ∧ r.stop = queryStart env cameraName w) ∧
    (∀ r ∈ w.motion, r.camera = cameraName →
      Time.le r.stop (queryStart env cameraName w) = true ∧
      r.stop.Unix ≤ (queryStart env cameraName w).Unix) ∧
    ∃ execs : List Effect,
      (scrapeCamera env baseURL cameraName w).2.trace =
        w.trace ++ [Effect.query cameraName,
          Effect.get (baseURL ++ "/api/" ++ cameraName ++ "/recordings?after=" ++
            toString (queryStart env cameraName w).Unix)] ++ execs ∧
      ∀ x ∈ execs, ∃ row : Row, x = Effect.exec row := by
  obtain ⟨m, hm⟩ : ∃ m, selectStop w.motion cameraName = some m := by
    cases h : selectStop w.motion cameraName with
    | none =>
      obtain ⟨r, hr, hc⟩ := hsome
      exact absurd hc ((selectStop_eq_none_iff w.motion cameraName).1 h r hr)
    | some m => exact ⟨m, rfl⟩
  have hqs : queryStart env cameraName w = m := by
    unfold queryStart
    rw [queryRowScan_dest env cameraName Time.zero w hq, hm]
    rfl
  obtain ⟨h1, h2⟩ := selectStop_spec w.motion cameraName m hm
  rw [hqs]
  refine ⟨h1, ?_, ?_⟩
  · intro r hr hc
    have hle := h2 r hr hc
    refine ⟨hle, ?_⟩
    rw [Time.le_iff] at hle
    unfold Time.Unix
    omega
  · obtain ⟨execs, h3, h4⟩ := scrapeCamera_trace_shape env baseURL cameraName w hq
    rw [hqs] at h3
    exact ⟨execs, h3, h4⟩

/-- C4 (as amended): when the cursor query succeeds and the fetched page has
no nil element, `scrapeCamera` sends the insert statements of the events in the
order received up to and including the first statement that fails, returns that
error at once and sends none for the events after it; when no statement fails
it sends one for every event of the page and returns `nil`. -/
theorem scrapeCamera_inserts_until_first_failure (env : Env) (baseURL cameraName : String)
    (w : World) (events : List event)
    (hq : env.dbFault w.stmts = false)
    (hget : env.http w.reqs (recordingsURL baseURL cameraName (queryStart env cameraName w).Unix) =
      HttpResult.response 200 (some (events.map some))) :
    ((∀ i : Nat, i < events.length → env.dbFault (w.stmts + 1 + i) = false) →
      (scrapeCamera env baseURL cameraName w).1 = Run.returned none ∧
      (scrapeCamera env baseURL cameraName w).2.trace =
        (fetchedWorld env baseURL cameraName w).trace ++
          events.map (fun e => Effect.exec (eventRow env cameraName e)) ∧
      (scrapeCamera env baseURL cameraName w).2.motion =
        (events.map (eventRow env cameraName)).foldl insertOnConflictDoNothing w.motion) ∧
    (∀ i : Nat, i < events.length → env.dbFault (w.stmts + 1 + i) = true →
      (∀ j : Nat, j < i → env.dbFault (w.stmts + 1 + j) = false) →
      (scrapeCamera env baseURL cameraName w).1 = Run.returned (some Error.inserting) ∧
      (scrapeCamera env baseURL cameraName w).2.trace =
        (fetchedWorld env baseURL cameraName w).trace ++
          (events.take (i + 1)).map (fun e => Effect.exec (eventRow env cameraName e)) ∧
      (scrapeCamera env baseURL cameraName w).2.motion =
        ((events.take i).map (eventRow env cameraName)).foldl insertOnConflictDoNothing
          w.motion) := by
  rw [scrapeCamera_of_ok env baseURL cameraName w hq (events.map some) hget]
  constructor
  · intro h
    exact insertEvents_all env cameraName events (fetchedWorld env baseURL cameraName w) h
  · intro i hi hf hb
    exact insertEvents_first_fault env cameraName events (fetchedWorld env baseURL cameraName w)
      i hi hf hb

theorem scrapeCamera_inserts_until_first_failure_witness :
    (scrapeCamera envFirstInsertFails "http://frigate" "front-door" emptyWorld).1 =
      Run.returned (some Error.inserting) ∧
    (scrapeCamera envFirstInsertFails "http://frigate" "front-door" emptyWorld).2.trace =
      (fetchedWorld envFirstInsertFails "http://frigate" "front-door" emptyWorld).trace ++
        (([⟨"a", 100, 110⟩, ⟨"b", 120, 130⟩] : List event).take (0 + 1)).map
          (fun e => Effect.exec (eventRow envFirstInsertFails "front-door" e)) ∧
    (scrapeCamera envFirstInsertFails "http://frigate" "front-door" emptyWorld).2.motion =
      ((([⟨"a", 100, 110⟩, ⟨"b", 120, 130⟩] : List event).take 0).map
        (eventRow envFirstInsertFails "front-door")).foldl insertOnConflictDoNothing
        emptyWorld.motion :=
  (scrapeCamera_inserts_until_first_failure envFirstInsertFails "http://frigate" "front-door"
    emptyWorld [⟨"a", 100, 110⟩, ⟨"b", 120, 130⟩] (by decide) (by rfl)).2 0
    (by decide) (by decide) (by decide)

/-- C4 (as stated) fails: the insert of event "a" fails, the loop returns at
once, and no insert is sent for event "b" although its statement would not
have failed; the table stays empty. -/
theorem scrapeCamera_abort_counterexample :
    (scrapeCamera envFirstInsertFails "http://frigate" "front-door" emptyWorld).2.trace =
      [Effect.query "front-door",
       Effect.get "http://frigate/api/front-door/recordings?after=-62135596800",
       Effect.exec ⟨"a", "front-door", unixTime 100, unixTime 110⟩] ∧
    Effect.exec ⟨"b", "front-door", unixTime 120, unixTime 130⟩ ∉
      (scrapeCamera envFirstInsertFails "http://frigate" "front-door" emptyWorld).2.trace ∧
    envFirstInsertFails.dbFault 2 = false ∧
    (scrapeCamera envFirstInsertFails "http://frigate" "front-door" emptyWorld).2.motion = [] := by
  decide

/-- C5: the code at the failing input. The table is empty, no statement fails
and the response has status 200 with the body `[null]`: the cursor query does
not fail, `listEvents` returns the slice with one nil element without error,
and `scrapeCamera` neither returns `nil` nor returns an error: evaluating
`event.ID` on the nil element panics. -/
theorem scrapeCamera_null_element_panics :
    (queryRowScan envNullPage "front-door" Time.zero emptyWorld).1 ≠ some ScanError.other ∧
    (listEvents envNullPage "http://frigate" "front-door"
      (queryRowScan envNullPage "front-door" Time.zero emptyWorld).2.1
      (queryRowScan envNullPage "front-door" Time.zero emptyWorld).2.2).1 = Except.ok [none] ∧
    (∀ n : Nat, envNullPage.dbFault n = false) ∧
    (scrapeCamera envNullPage "http://frigate" "front-door" emptyWorld).1 = Run.panicked ∧
    (∀ err : Option Error,
      (scrapeCamera envNullPage "http://frigate" "front-door" emptyWorld).1 ≠
        Run.returned err) := by
  have hp : (scrapeCamera envNullPage "http://frigate" "front-door" emptyWorld).1 =
      Run.panicked := by decide
  refine ⟨by decide, rfl, fun _ => rfl, hp, ?_⟩
  intro err h
  rw [hp] at h
  cases h

/-- C6 (as stated) fails: with an empty table the cursor is the zero
`time.Time`, not the Unix epoch, and the request carries
`after=-62135596800`, not `after=0`. -/
theorem scrapeCamera_epoch_counterexample :
    queryStart envHealthy "front-door" emptyWorld ≠ unixTime 0 ∧
    (queryStart envHealthy "front-door" emptyWorld).Unix ≠ 0 ∧
    (scrapeCamera envHealthy "http://frigate" "front-door" emptyWorld).2.trace[1]? =
      some (Effect.get "http://frigate/api/front-door/recordings?after=-62135596800") ∧
    Effect.get "http://frigate/api/front-door/recordings?after=0" ∉
      (scrapeCamera envHealthy "http://frigate" "front-door" emptyWorld).2.trace := by
  decide
theorem scrapeCamera_no_rows_request_witness :
    queryStart envHealthy "garage" emptyWorld = Time.zero ∧
    (queryStart envHealthy "garage" emptyWorld).Unix = -62135596800 ∧
    ∃ execs : List Effect,
      (scrapeCamera envHealthy "http://frigate" "garage" emptyWorld).2.trace =
        emptyWorld.trace ++ [Effect.query "garage",
          Effect.get ("http://frigate" ++ "/api/" ++ "garage" ++ "/recordings?after=" ++
            "-62135596800")] ++ execs ∧
      ∀ x ∈ execs, ∃ row : Row, x = Effect.exec row :=
  scrapeCamera_no_rows_request envHealthy "http://frigate" "garage" emptyWorld (by decide)
    (by decide)

theorem scrapeCamera_cursor_is_latest_stop_witness :
    queryStart envHealthy "front-door" storedWorld = unixTime 110 ∧
    toString (queryStart envHealthy "front-door" storedWorld).Unix = "110" ∧
    ∃ execs : List Effect,
      (scrapeCamera envHealthy "http://frigate" "front-door" storedWorld).2.trace =
        storedWorld.trace ++ [Effect.query "front-door",
          Effect.get ("http://frigate" ++ "/api/" ++ "front-door" ++ "/recordings?after=" ++
            toString (queryStart envHealthy "front-door" storedWorld).Unix)] ++ execs ∧
      ∀ x ∈ execs, ∃ row : Row, x = Effect.exec row :=
  ⟨by decide, by decide,
    (scrapeCamera_cursor_is_latest_stop envHealthy "http://frigate" "front-door" storedWorld
      (by decide) ⟨⟨"a", "front-door", unixTime 100, unixTime 110⟩, by decide, by decide⟩).2.2⟩

/-- C9: when the response to the request has a status other than 200,
whatever its body, `listEvents` returns the error "unexpected status code",
and `scrapeCamera` returns an error, sends no insert statement (the cursor
query is the only statement it sends) and leaves the table as it was. -/
theorem scrapeCamera_non200 (env : Env) (baseURL cameraName : String) (w : World)
    (code : Int) (body : Option (List (Option event))) (hcode : code ≠ 200) :
    (∀ start : Time,
      env.http w.reqs (recordingsURL baseURL cameraName start.Unix) =
        HttpResult.response code body →
      (listEvents env baseURL cameraName start w).1 = Except.error (Error.statusCode code) ∧
      (listEvents env baseURL cameraName start w).2.motion = w.motion) ∧
    (env.http w.reqs (recordingsURL baseURL cameraName (queryStart env cameraName w).Unix) =
        HttpResult.response code body →
      (∃ err : Error, (scrapeCamera env baseURL cameraName w).1 = Run.returned (some err)) ∧
      (scrapeCamera env baseURL cameraName w).2.motion = w.motion ∧
      (scrapeCamera env baseURL cameraName w).2.stmts = w.stmts + 1 ∧
      ∀ row : Row, Effect.exec row ∈ (scrapeCamera env baseURL cameraName w).2.trace →
        Effect.exec row ∈ w.trace) := by
  constructor
  · intro start h
    refine ⟨listEvents_status env baseURL cameraName start w code body hcode h, ?_⟩
    rw [listEvents_world]
  · intro h
    cases hq : env.dbFault w.stmts with
    | true =>
      rw [scrapeCamera_of_fault env baseURL cameraName w hq]
      refine ⟨⟨_, rfl⟩, rfl, rfl, ?_⟩
      intro row hrow
      simpa using hrow
    | false =>
      have hl := listEvents_status env baseURL cameraName
        (queryRowScan env cameraName Time.zero w).2.1
        (queryRowScan env cameraName Time.zero w).2.2 code body hcode
        (by rw [queryRowScan_world]; exact h)
      rw [scrapeCamera_of_error env baseURL cameraName w hq _ hl]
      refine ⟨⟨_, rfl⟩, rfl, rfl, ?_⟩
      intro row hrow
      simpa [fetchedWorld_trace] using hrow

theorem scrapeCamera_non200_witness :
    (∃ err : Error,
      (scrapeCamera envStatus500 "http://frigate" "front-door" storedWorld).1 =
        Run.returned (some err)) ∧
    (scrapeCamera envStatus500 "http://frigate" "front-door" storedWorld).2.motion =
      storedWorld.motion ∧
    (scrapeCamera envStatus500 "http://frigate" "front-door" storedWorld).2.stmts =
      storedWorld.stmts + 1 ∧
    ∀ row : Row,
      Effect.exec row ∈ (scrapeCamera envStatus500 "http://frigate" "front-door" storedWorld).2.trace →
        Effect.exec row ∈ storedWorld.trace :=
  (scrapeCamera_non200 envStatus500 "http://frigate" "front-door" storedWorld 500 (some pageAB)
    (by decide)).2 (by rfl)

/-! ## The upsert -/

theorem queriedCameras_append (xs ys : List Effect) :
    queriedCameras (xs ++ ys) = queriedCameras xs ++ queriedCameras ys := by
  induction xs with
  | nil => rfl
  | cons x rest ih =>
    cases x <;> simp [queriedCameras, ih]

theorem queriedCameras_execs (execs : List Effect)
    (h : ∀ x ∈ execs, ∃ row : Row, x = Effect.exec row) : queriedCameras execs = [] := by
  induction execs with
  | nil => rfl
  | cons x rest ih =>
    obtain ⟨row, rfl⟩ := h x (by simp)
    simp only [queriedCameras]
    exact ih (fun y hy => h y (List.mem_cons_of_mem _ hy))

/-- Every call of `scrapeCamera` makes exactly one cursor query, for its camera. -/
theorem scrapeCamera_queriedCameras (env : Env) (baseURL cameraName : String) (w : World) :
    queriedCameras (scrapeCamera env baseURL cameraName w).2.trace =
      queriedCameras w.trace ++ [cameraName] := by
  cases hq : env.dbFault w.stmts with
  | true =>
    rw [scrapeCamera_of_fault env baseURL cameraName w hq]
    simp [queriedCameras_append, queriedCameras]
  | false =>
    obtain ⟨execs, h1, h2⟩ := scrapeCamera_trace_shape env baseURL cameraName w hq
    rw [h1]
    simp [queriedCameras_append, queriedCameras, queriedCameras_execs execs h2]

/-- A call of `scrapeCamera` removes no row. -/
theorem scrapeCamera_motion_mono (env : Env) (baseURL cameraName : String) (w : World)
    (x : Row) (hx : x ∈ w.motion) : x ∈ (scrapeCamera env baseURL cameraName w).2.motion := by
  cases hq : env.dbFault w.stmts with
  | true =>
    rw [scrapeCamera_of_fault env baseURL cameraName w hq]
    exact hx
  | false =>
    cases hl : (listEvents env baseURL cameraName (queryRowScan env cameraName Time.zero w).2.1
        (queryRowScan env cameraName Time.zero w).2.2).1 with
    | error err =>
      rw [scrapeCamera_of_error env baseURL cameraName w hq err hl]
      exact hx
    | ok page =>
      have hget := (listEvents_ok_iff env baseURL cameraName _ _ page).1 hl
      rw [queryRowScan_world] at hget
      rw [scrapeCamera_of_ok env baseURL cameraName w hq page hget]
      exact insertEvents_motion_mono env cameraName page _ x hx

/-- When `scrapeCamera` returns `nil`, every event of the page it fetched has a
row of its `id` in the table: a row that was there before the call, or the row
the call sent for an event of that `id`. -/
theorem scrapeCamera_none_rows (env : Env) (baseURL cameraName : String) (w : World)
    (page : List (Option event))
    (hnone : (scrapeCamera env baseURL cameraName w).1 = Run.returned none)
    (hl : (listEvents env baseURL cameraName (queryRowScan env cameraName Time.zero w).2.1
      (queryRowScan env cameraName Time.zero w).2.2).1 = Except.ok page) :
    ∀ e : event, some e ∈ page →
      ∃ x ∈ (scrapeCamera env baseURL cameraName w).2.motion, x.id = e.ID ∧
        (x ∈ w.motion ∨ ∃ e2 : event, some e2 ∈ page ∧ x = eventRow env cameraName e2) := by
  cases hq : env.dbFault w.stmts with
  | true =>
    rw [scrapeCamera_of_fault env baseURL cameraName w hq] at hnone
    simp at hnone
  | false =>
    have hget := (listEvents_ok_iff env baseURL cameraName _ _ page).1 hl
    rw [queryRowScan_world] at hget
    rw [scrapeCamera_of_ok env baseURL cameraName w hq page hget] at hnone ⊢
    exact insertEvents_none_rows env cameraName page _ hnone

theorem scrapeEach_nil (env : Env) (FrigateURL : String) (w : World) :
    scrapeEach env FrigateURL [] w = ([], w) := rfl

theorem scrapeEach_cons (env : Env) (FrigateURL : String) (camera : String) (rest : List String)
    (w : World) :
    scrapeEach env FrigateURL (camera :: rest) w =
      ((scrapeCamera env FrigateURL camera w).1 ::
          (scrapeEach env FrigateURL rest (scrapeCamera env FrigateURL camera w).2).1,
        (scrapeEach env FrigateURL rest (scrapeCamera env FrigateURL camera w).2).2) := rfl

theorem scrapeEach_append (env : Env) (FrigateURL : String) (pre post : List String) :
    ∀ w : World, scrapeEach env FrigateURL (pre ++ post) w =
      ((scrapeEach env FrigateURL pre w).1 ++
          (scrapeEach env FrigateURL post (scrapeEach env FrigateURL pre w).2).1,
        (scrapeEach env FrigateURL post (scrapeEach env FrigateURL pre w).2).2) := by
  induction pre with
  | nil => intro w; rfl
  | cons c rest ih =>
    intro w
    simp only [List.cons_append, scrapeEach_cons, ih]

theorem scrapeEach_length (env : Env) (FrigateURL : String) (cameras : List String) :
    ∀ w : World, (scrapeEach env FrigateURL cameras w).1.length = cameras.length := by
  induction cameras with
  | nil => intro w; rfl
  | cons c rest ih =>
    intro w
    simp [scrapeEach_cons, ih]

theorem scrapeEach_queriedCameras (env : Env) (FrigateURL : String) (cameras : List String) :
    ∀ w : World, queriedCameras (scrapeEach env FrigateURL cameras w).2.trace =
      queriedCameras w.trace ++ cameras := by
  induction cameras with
  | nil => intro w; simp [scrapeEach_nil]
  | cons c rest ih =>
    intro w
    rw [scrapeEach_cons]
    simp only [ih, scrapeCamera_queriedCameras]
    simp

theorem scrapeEach_motion_mono (env : Env) (FrigateURL : String) (cameras : List String) :
    ∀ (w : World) (x : Row), x ∈ w.motion → x ∈ (scrapeEach env FrigateURL cameras w).2.motion := by
  induction cameras with
  | nil => intro w x hx; exact hx
  | cons c rest ih =>
    intro w x hx
    rw [scrapeEach_cons]
    exact ih _ x (scrapeCamera_motion_mono env FrigateURL c w x hx)

theorem passLoop_cons_returned (env : Env) (FrigateURL : String) (camera : String)
    (rest : List String) (ok : Bool) (w : World) (err : Option Error)
    (h : (scrapeCamera env FrigateURL camera w).1 = Run.returned err) :
    passLoop env FrigateURL (camera :: rest) ok w =
      passLoop env FrigateURL rest (ok && decide (err = none))
        (scrapeCamera env FrigateURL camera w).2 := by
  simp only [passLoop, h]
  cases err <;> simp

theorem passLoop_cons_panicked (env : Env) (FrigateURL : String) (camera : String)
    (rest : List String) (ok : Bool) (w : World)
    (h : (scrapeCamera env FrigateURL camera w).1 = Run.panicked) :
    passLoop env FrigateURL (camera :: rest) ok w =
      (Run.panicked, (scrapeCamera env FrigateURL camera w).2) := by
  simp only [passLoop, h]

/-- While no call of `scrapeCamera` panics, the loop of the pass is the
specification `scrapeEach`: the same final world, and it returns a value of
`ok` that is true exactly when `ok` was true and every call returned `nil`. -/
theorem passLoop_of_no_panic (env : Env) (FrigateURL : String) (cameras : List String) :
    ∀ (ok : Bool) (w : World),
      (∀ r ∈ (scrapeEach env FrigateURL cameras w).1, r ≠ Run.panicked) →
      (passLoop env FrigateURL cameras ok w).2 = (scrapeEach env FrigateURL cameras w).2 ∧
      ∃ b : Bool, (passLoop env FrigateURL cameras ok w).1 = Run.returned b ∧
        (b = true ↔
          ok = true ∧ ∀ r ∈ (scrapeEach env FrigateURL cameras w).1, r = Run.returned none) := by
  induction cameras with
  | nil => intro ok w _; exact ⟨rfl, ok, rfl, by simp [scrapeEach_nil]⟩
  | cons c rest ih =>
    intro ok w hnp
    rw [scrapeEach_cons] at hnp ⊢
    cases hr : (scrapeCamera env FrigateURL c w).1 with
    | panicked =>
      exact absurd hr (hnp _ (by simp))
    | returned err =>
      rw [passLoop_cons_returned env FrigateURL c rest ok w err hr]
      obtain ⟨h1, b, h2, h3⟩ := ih (ok && decide (err = none))
        (scrapeCamera env FrigateURL c w).2
        (fun r hrm => hnp r (List.mem_cons_of_mem _ hrm))
      refine ⟨h1, b, h2, ?_⟩
      rw [h3]
      cases err <;> simp

/-- When the call for a camera is the first to panic, the pass ends there in a
panic: the cameras configured after it are never scraped. -/
theorem passLoop_of_panic (env : Env) (FrigateURL : String) (pre : List String) :
    ∀ (camera : String) (post : List String) (ok : Bool) (w : World),
      (∀ r ∈ (scrapeEach env FrigateURL pre w).1, r ≠ Run.panicked) →
      (scrapeCamera env FrigateURL camera (scrapeEach env FrigateURL pre w).2).1 = Run.panicked →
      passLoop env FrigateURL (pre ++ camera :: post) ok w =
        (Run.panicked, (scrapeCamera env FrigateURL camera (scrapeEach env FrigateURL pre w).2).2) ∧
      queriedCameras (passLoop env FrigateURL (pre ++ camera :: post) ok w).2.trace =
        queriedCameras w.trace ++ pre ++ [camera] := by
  induction pre with
  | nil =>
    intro camera post ok w _ hp
    rw [scrapeEach_nil] at hp
    rw [List.nil_append, passLoop_cons_panicked env FrigateURL camera post ok w hp]
    exact ⟨rfl, by simp [scrapeEach_nil, scrapeCamera_queriedCameras]⟩
  | cons c rest ih =>
    intro camera post ok w hnp hp
    rw [scrapeEach_cons] at hnp hp
    cases hr : (scrapeCamera env FrigateURL c w).1 with
    | panicked =>
      exact absurd hr (hnp _ (by simp))
    | returned err =>
      rw [List.cons_append, passLoop_cons_returned env FrigateURL c _ ok w err hr]
      obtain ⟨h1, h2⟩ := ih camera post (ok && decide (err = none))
        (scrapeCamera env FrigateURL c w).2
        (fun r hrm => hnp r (List.mem_cons_of_mem _ hrm)) hp
      refine ⟨by rw [h1, scrapeEach_cons], ?_⟩
      rw [h2, scrapeCamera_queriedCameras]
      simp

/-- While no call of `scrapeCamera` panics, the pass scrapes every configured
camera once, in order, returns true exactly when every call returned `nil`,
and the events of a page whose call returned `nil` have their rows at the end
of the pass, whatever the other calls returned. -/
theorem pass_of_no_panic (env : Env) (FrigateURL : String) (Cameras : List String) (w : World)
    (hnp : ∀ r ∈ (scrapeEach env FrigateURL Cameras w).1, r ≠ Run.panicked) :
    (pass env FrigateURL Cameras w).2 = (scrapeEach env FrigateURL Cameras w).2 ∧
    queriedCameras (pass env FrigateURL Cameras w).2.trace = queriedCameras w.trace ++ Cameras ∧
    (∃ b : Bool, (pass env FrigateURL Cameras w).1 = Run.returned b ∧
      (b = true ↔ ∀ r ∈ (scrapeEach env FrigateURL Cameras w).1, r = Run.returned none)) ∧
    (∀ (pre : List String) (camera : String) (post : List String) (page : List (Option event)),
      Cameras = pre ++ camera :: post →
      (scrapeCamera env FrigateURL camera (scrapeEach env FrigateURL pre w).2).1 =
        Run.returned none →
      (listEvents env FrigateURL camera
        (queryRowScan env camera Time.zero (scrapeEach env FrigateURL pre w).2).2.1
        (queryRowScan env camera Time.zero (scrapeEach env FrigateURL pre w).2).2.2).1 =
          Except.ok page →
      ∀ e : event, some e ∈ page →
        ∃ x ∈ (pass env FrigateURL Cameras w).2.motion, x.id = e.ID ∧
          (x ∈ (scrapeEach env FrigateURL pre w).2.motion ∨
            ∃ e2 : event, some e2 ∈ page ∧ x = eventRow env camera e2)) := by
  obtain ⟨h1, b, h2, h3⟩ := passLoop_of_no_panic env FrigateURL Cameras true w hnp
  have hw : (pass env FrigateURL Cameras w).2 = (scrapeEach env FrigateURL Cameras w).2 := h1
  refine ⟨hw, ?_, ⟨b, h2, by rw [h3]; simp⟩, ?_⟩
  · rw [hw, scrapeEach_queriedCameras]
  · intro pre camera post page hc hnone hl e he
    rw [hw, hc, scrapeEach_append, scrapeEach_cons]
    obtain ⟨x, hx, hid, hor⟩ := scrapeCamera_none_rows env FrigateURL camera _ page hnone hl e he
    exact ⟨x, scrapeEach_motion_mono env FrigateURL post _ x hx, hid, hor⟩

/-- C8: the code at the failing input. Cameras "garage" and "front-door" are
configured in that order, the table is empty and no statement fails; the
request for "garage" returns status 200 with the body `[null]`, the request for
"front-door" returns two events. On its own the call for "front-door" returns
`nil` and stores both events. In the pass the call for "garage" panics and the
pass ends there: no cursor query is made for "front-door", no request asks for
its events and the table stays empty. -/
theorem pass_null_element_panics :
    (scrapeCamera envGarageNull "http://frigate" "front-door" emptyWorld).1 =
      Run.returned none ∧
    (scrapeCamera envGarageNull "http://frigate" "front-door" emptyWorld).2.motion =
      [⟨"a", "front-door", unixTime 100, unixTime 110⟩,
       ⟨"b", "front-door", unixTime 120, unixTime 130⟩] ∧
    (pass envGarageNull "http://frigate" ["garage", "front-door"] emptyWorld).1 = Run.panicked ∧
    (pass envGarageNull "http://frigate" ["garage", "front-door"] emptyWorld).2.trace =
      [Effect.query "garage",
       Effect.get "http://frigate/api/garage/recordings?after=-62135596800"] ∧
    queriedCameras
      (pass envGarageNull "http://frigate" ["garage", "front-door"] emptyWorld).2.trace =
      ["garage"] ∧
    (pass envGarageNull "http://frigate" ["garage", "front-door"] emptyWorld).2.motion = [] := by
  decide

end FrigateExporter
